import Mathlib

/-!
Verification development for the single-table SQL execution adapter
(`mindsdb/api/mysql/mysql_proxy/utilities/sql.py`): `query_df`,
`infer_column_type`, `infer_and_convert_types`, the `adapt_query`
traversal callback, the strict/lenient dialect rendering, the
`TRAINING_OPTIONS` workaround and the post-execution column renaming.

The embedding is shallow: pandas Series/DataFrames become explicit
column lists, the duckdb engine and the sqlalchemy renderer (external
collaborators) become function parameters, and the engine-session side
effects become an explicit event trace.
-/

namespace MDB

/-- Scalar SQL constant values (`mindsdb_sql.parser.ast.Constant` payloads).
A float literal is carried as an exact decimal `mant / 10 ^ scale`. -/
inductive SqlVal
| intV (n : Int)
| numV (mant : Int) (scale : Nat)
| strV (s : String)
| nullV
deriving DecidableEq, Repr

/-- Flat JSON scalar, the element type of structured (dict/list) cells.
`jbad` models a value the JSON encoder raises on (non-serializable object);
nesting of structures is flattened in the model. -/
inductive JVal
| jstr (s : String)
| jint (n : Int)
| jbad (tag : String)
deriving DecidableEq, Repr

/-- One pandas cell. `nanV` is `np.nan`/`NaT`; `dateV` an already-parsed
temporal value; `listV`/`dictV` structured (JSON-bearing) values;
`objV` an opaque Python object; `intCastV` models an object exposing
integer conversion but not float conversion (defines only `__int__`),
the one way `astype(int)` can succeed where `astype(float)` failed. -/
inductive Cell
| strV (s : String)
| intV (n : Int)
| numV (mant : Int) (scale : Nat)
| nullV
| nanV
| dateV (y m d : Nat)
| listV (elems : List JVal)
| dictV (kvs : List (String × JVal))
| objV (tag : String)
| intCastV (n : Int)
deriving DecidableEq, Repr

/-- pandas column dtypes distinguished by the code: `objectD` is the
generic dtype (`is_object_dtype`), `stringD` the extension dtype produced
by `astype('string')`, the rest the specifically-typed representations. -/
inductive Dtype
| objectD
| floatD
| intD
| datetimeD
| stringD
deriving DecidableEq, Repr

/-- A pandas Series: a dtype and the cell values. -/
structure Column where
  dtype : Dtype
  values : List Cell
deriving DecidableEq, Repr

/-- A pandas DataFrame: ordered, named columns (row-aligned). -/
structure DF where
  cols : List (String × Column)
deriving DecidableEq, Repr

/-- Column labels, in order (`df.columns`). -/
def dfColNames (df : DF) : List String :=
  df.cols.map Prod.fst

/-- Row count `len(df)`: number of rows (length of the first column; 0 if no columns). -/
def dfLen (df : DF) : Nat :=
  match df.cols with
  | [] => 0
  | (_, c) :: _ => c.values.length

/-- Column access `df[name]`: first column carrying the label. -/
def getCol (df : DF) (name : String) : Option Column :=
  (df.cols.find? (fun p => p.1 = name)).map Prod.snd

/-- Numeric value of a digit string. -/
def digitsVal (l : List Char) : Nat :=
  l.foldl (fun a c => a * 10 + (c.toNat - 48)) 0

/-- ASCII lower-casing of one character. -/
def lowerChar (c : Char) : Char :=
  if 'A' ≤ c ∧ c ≤ 'Z' then Char.ofNat (c.toNat + 32) else c

/-- Python `s.lower()` (ASCII suffices for the compared names). -/
def strToLower (s : String) : String :=
  String.mk (s.toList.map lowerChar)

/-- Whitespace trimming over a character list (Python number parsing
strips surrounding whitespace). -/
def trimChars (l : List Char) : List Char :=
  ((l.dropWhile Char.isWhitespace).reverse.dropWhile Char.isWhitespace).reverse

/-- Model of Python `float(s)` on a string: optional sign, digits with an
optional fractional part (exponent forms are immaterial here and omitted).
The value is returned exactly, as `mant / 10 ^ scale`. -/
def parseFloat (s : String) : Option (Int × Nat) :=
  let l0 := trimChars s.toList
  let sgn : Int := match l0 with
    | '-' :: _ => -1
    | _ => 1
  let l := match l0 with
    | '-' :: t => t
    | '+' :: t => t
    | _ => l0
  let ip := l.takeWhile Char.isDigit
  let rest := l.dropWhile Char.isDigit
  match rest with
  | [] => if ip.isEmpty then none else some (sgn * (digitsVal ip : Int), 0)
  | '.' :: fp =>
    if fp.all Char.isDigit ∧ (ip ≠ [] ∨ fp ≠ []) then
      some (sgn * ((digitsVal ip * 10 ^ fp.length + digitsVal fp : Nat) : Int), fp.length)
    else none
  | _ => none

/-- Model of Python `int(s)` on a string: optional sign, digits only. -/
def parseInt (s : String) : Option Int :=
  let l0 := trimChars s.toList
  let sgn : Int := match l0 with
    | '-' :: _ => -1
    | _ => 1
  let l := match l0 with
    | '-' :: t => t
    | '+' :: t => t
    | _ => l0
  if l ≠ [] ∧ l.all Char.isDigit then some (sgn * (digitsVal l : Int)) else none

/-- Model of a `pd.to_datetime`-parseable string: ISO `YYYY-MM-DD`
(the many other accepted formats are immaterial to the claims). -/
def parseDate (s : String) : Option (Nat × Nat × Nat) :=
  match trimChars s.toList with
  | [y1, y2, y3, y4, '-', m1, m2, '-', d1, d2] =>
    if ([y1, y2, y3, y4, m1, m2, d1, d2].all Char.isDigit) then
      let m := digitsVal [m1, m2]
      let d := digitsVal [d1, d2]
      if 1 ≤ m ∧ m ≤ 12 ∧ 1 ≤ d ∧ d ≤ 31 then
        some (digitsVal [y1, y2, y3, y4], m, d)
      else none
    else none
  | _ => none

/-- Truncation toward zero of `mant / 10 ^ scale`, Python `int(float)`. -/
def floatTrunc (mant : Int) (scale : Nat) : Int :=
  Int.tdiv mant ((10 : Int) ^ scale)

/-- Per-cell behaviour of `column.astype(float)`: ints/decimals convert,
`None` becomes NaN, strings go through `float(...)`, structured values and
objects raise (`TypeError`/`ValueError`, i.e. `none`). -/
def cellToFloat : Cell → Option Cell
| .intV n => some (.numV n 0)
| .numV m sc => some (.numV m sc)
| .strV s => (parseFloat s).map (fun p => .numV p.1 p.2)
| .nullV => some .nanV
| .nanV => some .nanV
| .dateV _ _ _ => none
| .listV _ => none
| .dictV _ => none
| .objV _ => none
| .intCastV _ => none

/-- Per-cell behaviour of `pd.to_datetime`: date strings and parsed dates
convert, missing values become NaT (modelled as NaN); numeric cells are
unreachable on this branch (the float coercion has already succeeded on
them) and other objects raise. -/
def cellToDatetime : Cell → Option Cell
| .strV s => (parseDate s).map (fun t => .dateV t.1 t.2.1 t.2.2)
| .dateV y m d => some (.dateV y m d)
| .nullV => some .nanV
| .nanV => some .nanV
| _ => none

/-- Per-cell behaviour of `column.astype(int)`: ints convert, floats
truncate, strings go through `int(...)`, int-castable objects convert,
missing values and everything else raise. -/
def cellToInt : Cell → Option Cell
| .intV n => some (.intV n)
| .numV m sc => some (.intV (floatTrunc m sc))
| .strV s => (parseInt s).map .intV
| .intCastV n => some (.intV n)
| _ => none

/-- Model of Python `str(value)` (exact rendering of structured values is
immaterial to the claims). -/
def cellRepr : Cell → String
| .strV s => s
| .intV n => toString n
| .numV m sc => toString m ++ "e-" ++ toString sc
| .nullV => "None"
| .nanV => "nan"
| .dateV y m d => toString y ++ "-" ++ toString m ++ "-" ++ toString d
| .listV _ => "[...]"
| .dictV _ => "\x7b...\x7d"
| .objV tag => tag
| .intCastV n => toString n

/-- Series cast `column.astype(float)`: succeeds iff every cell converts; the result
carries the float dtype. -/
def astypeFloat (c : Column) : Option Column :=
  (c.values.mapM cellToFloat).map (fun vs => ⟨.floatD, vs⟩)

/-- Series parse `pd.to_datetime(column)`: succeeds iff every cell converts; the result
carries the datetime dtype. -/
def toDatetime (c : Column) : Option Column :=
  (c.values.mapM cellToDatetime).map (fun vs => ⟨.datetimeD, vs⟩)

/-- Series cast `column.astype(int)`: succeeds iff every cell converts; the result
carries the int dtype. -/
def astypeInt (c : Column) : Option Column :=
  (c.values.mapM cellToInt).map (fun vs => ⟨.intD, vs⟩)

/-- Series cast `column.astype(str)`: total; every value becomes its string rendering.
On an object-dtype Series pandas keeps the `object` dtype here. -/
def astypeStr (c : Column) : Column :=
  ⟨.objectD, c.values.map (fun v => .strV (cellRepr v))⟩

/-- Source `infer_column_type` (sql.py lines 120-141): non-object columns are
returned unchanged (the subsequent datetime-dtype check is kept from the
source although it is unreachable under an object dtype); object columns
try float, then datetime, then int, and fall back to string conversion. -/
def infer_column_type (c : Column) : Column :=
  if c.dtype ≠ .objectD then c
  else if c.dtype = .datetimeD then c
  else
    match astypeFloat c with
    | some r => r
    | none =>
      match toDatetime c with
      | some r => r
      | none =>
        match astypeInt c with
        | some r => r
        | none => astypeStr c

/-- Sample size bound of `infer_and_convert_types`. -/
def sampleSize : Nat := 100

/-- Source `infer_and_convert_types` (sql.py lines 144-157): per column, draw a
sample of `min(sample_size, len(df))` rows (the random `Series.sample` is
modelled as taking the first rows; the claims do not depend on which rows
are drawn), infer on the sample, and re-run the inference on the full
column iff the inferred dtype differs from the original dtype. -/
def inferEntry (df : DF) (nc : String × Column) : String × Column :=
  if (infer_column_type ⟨nc.2.dtype, nc.2.values.take (min sampleSize (dfLen df))⟩).dtype
      ≠ nc.2.dtype
  then (nc.1, infer_column_type nc.2) else nc

/-- The loop of `infer_and_convert_types` over the columns (each column is
updated independently of the others). -/
def infer_and_convert_types (df : DF) : DF :=
  ⟨df.cols.map (inferEntry df)⟩

mutual

/-- Expression nodes of the parsed query reachable inside a `Select`
(`mindsdb_sql.parser.ast`): identifiers (possibly multi-part), constants,
star, function calls, binary operations. Function argument lists are a
dedicated list type so that the traversal is structurally recursive. -/
inductive Expr
| identifier (parts : List String)
| constant (v : SqlVal)
| star
| function (op : String) (args : ExprList)
| binop (op : String) (lhs rhs : Expr)

/-- A list of expressions (a function call's `args`). -/
inductive ExprList
| nil
| cons (hd : Expr) (tl : ExprList)

end

deriving instance DecidableEq for Expr

deriving instance DecidableEq for ExprList

/-- Length of an argument list (`len(node.args)`). -/
def ExprList.length : ExprList → Nat
| .nil => 0
| .cons _ t => 1 + ExprList.length t

/-- First argument, if any (`node.args[0]`). -/
def ExprList.headOpt : ExprList → Option Expr
| .nil => none
| .cons a _ => some a

/-- Concatenation of argument lists (`node.args.append(...)`). -/
def ExprList.append : ExprList → ExprList → ExprList
| .nil, l => l
| .cons a t, l => .cons a (ExprList.append t l)

/-- The `FROM` sources: a simple (possibly multi-part) table identifier, or any
other source shape (join, subquery, ...), which the code rejects. -/
inductive FromNode
| identifier (parts : List String)
| otherSource (tag : String)
deriving DecidableEq

/-- A `Select` node: target list, source, and the expression-bearing
clauses the traversal visits. -/
structure Select where
  targets : List Expr
  from_table : Option FromNode
  whereClause : Option Expr
  groupBy : List Expr
  having : Option Expr
  orderBy : List Expr
deriving DecidableEq

/-- Root of the parsed query: a `Select`, or any other statement kind. -/
inductive Query
| select (s : Select)
| other (tag : String)
deriving DecidableEq

/-- Failure conditions of `query_df`, by the Python exception they model.
`notSupported` is the explicit shape rejection; `indexErr`/`attributeErr`
arise from `node.args[0]`/`.parts[-1]` on ill-shaped `json_extract` calls
and from `from_table.parts[0]`; `keyErr` from `df[column]` on a missing
column; `renderErr` when both rendering modes raise; `execErr` when the
engine raises. -/
inductive QErr
| notSupported
| indexErr
| attributeErr
| keyErr (col : String)
| renderErr (msg : String)
| execErr (msg : String)
deriving DecidableEq, Repr

/-- The `json_extract` head processing of `adapt_query` (sql.py lines
64-65): `json_columns.add(node.args[0].parts[-1])`. An empty argument
list raises IndexError, a non-identifier first argument has no `.parts`
(AttributeError), empty parts raise IndexError. For any other function
name nothing is collected. -/
def jxHead (fnc : String) (args : ExprList) : Except QErr (List String) :=
  if fnc = "json_extract" then
    match args with
    | .nil => .error .indexErr
    | .cons a _ =>
      match a with
      | .identifier ps =>
        match ps.getLast? with
        | some c => .ok [c]
        | none => .error .indexErr
      | _ => .error .attributeErr
  else .ok []

/-- The constant substituted for a zero-argument `database()` call:
the session's current database, or NULL without a session. -/
def sessionConst (session : Option String) : SqlVal :=
  match session with
  | some db => .strV db
  | none => .nullV

mutual

/-- Source `query_traversal` with the `adapt_query` callback (sql.py lines 47-67)
on one non-table expression: multi-part identifiers are stripped to their
last part (and, being replaced nodes, not descended into); a zero-argument
`database()` becomes a constant; a `truncate` call is renamed to `round`
with a `0` appended when it had exactly one argument (the callback appends
before the children are walked, but the appended constant is inert under
the walk, so appending after is equivalent); a `json_extract` call records
its first argument's column name. The collected column names are returned
alongside the rewritten node. -/
def adaptExpr (session : Option String) : Expr → Except QErr (Expr × List String)
| .identifier parts =>
  if parts.length > 1 then .ok (.identifier [parts.getLast!], [])
  else .ok (.identifier parts, [])
| .constant v => .ok (.constant v, [])
| .star => .ok (.star, [])
| .binop op lhs rhs =>
  match adaptExpr session lhs with
  | .error e => .error e
  | .ok (l2, jl) =>
    match adaptExpr session rhs with
    | .error e => .error e
    | .ok (r2, jr) => .ok (.binop op l2 r2, jl ++ jr)
| .function op args =>
  let fnc := strToLower op
  if fnc = "database" ∧ ExprList.length args = 0 then
    .ok (.constant (sessionConst session), [])
  else
    match jxHead fnc args with
    | .error e => .error e
    | .ok jhead =>
      match adaptArgs session args with
      | .error e => .error e
      | .ok (args2, js2) =>
        let op2 := if fnc = "truncate" then "round" else op
        let args3 := if fnc = "truncate" ∧ ExprList.length args = 1
          then ExprList.append args2 (.cons (.constant (.intV 0)) .nil)
          else args2
        .ok (.function op2 args3, jhead ++ js2)
termination_by structural e => e

/-- The traversal over a function's argument list. -/
def adaptArgs (session : Option String) : ExprList → Except QErr (ExprList × List String)
| .nil => .ok (.nil, [])
| .cons a t =>
  match adaptExpr session a with
  | .error e => .error e
  | .ok (a2, ja) =>
    match adaptArgs session t with
    | .error e => .error e
    | .ok (t2, jt) => .ok (.cons a2 t2, ja ++ jt)
termination_by structural l => l

end

/-- Adaptation of an optional clause expression. -/
def adaptOpt (session : Option String) : Option Expr → Except QErr (Option Expr × List String)
| none => .ok (none, [])
| some e =>
  match adaptExpr session e with
  | .error err => .error err
  | .ok (e2, js) => .ok (some e2, js)

/-- Adaptation of a clause's expression list. -/
def adaptList (session : Option String) : List Expr → Except QErr (List Expr × List String)
| [] => .ok ([], [])
| e :: t =>
  match adaptExpr session e with
  | .error err => .error err
  | .ok (e2, js) =>
    match adaptList session t with
    | .error err => .error err
    | .ok (t2, jt) => .ok (e2 :: t2, js ++ jt)

/-- Source `query_traversal(query_ast, adapt_query)` over the whole `Select`:
the source reference is visited with `is_table=True` and skipped by the
callback; every expression-bearing clause is walked. -/
def adaptSelect (session : Option String) (s : Select) : Except QErr (Select × List String) :=
  match adaptList session s.targets with
  | .error e => .error e
  | .ok (ts, j1) =>
    match adaptOpt session s.whereClause with
    | .error e => .error e
    | .ok (w, j2) =>
      match adaptList session s.groupBy with
      | .error e => .error e
      | .ok (gs, j3) =>
        match adaptOpt session s.having with
        | .error e => .error e
        | .ok (h, j4) =>
          match adaptList session s.orderBy with
          | .error e => .error e
          | .ok (os, j5) =>
            .ok (Select.mk ts s.from_table w gs h os,
                 j1 ++ j2 ++ j3 ++ j4 ++ j5)

/-- Insertion-ordered deduplication: the Python `set` of collected JSON
column names (iteration order is immaterial: each column is converted
independently). -/
def dedupKeep (l : List String) : List String :=
  l.foldl (fun acc c => if c ∈ acc then acc else acc ++ [c]) []

mutual

/-- Argument lists of every `json_extract` call node (case-insensitive)
reachable from an expression. -/
def jsonExtractArgs : Expr → List ExprList
| .identifier _ => []
| .constant _ => []
| .star => []
| .binop _ lhs rhs => jsonExtractArgs lhs ++ jsonExtractArgs rhs
| .function op args =>
  (if strToLower op = "json_extract" then [args] else []) ++ jsonExtractArgsL args
termination_by structural e => e

/-- Occurrence collection over an argument list. -/
def jsonExtractArgsL : ExprList → List ExprList
| .nil => []
| .cons a t => jsonExtractArgs a ++ jsonExtractArgsL t
termination_by structural l => l

end

/-- Occurrence collection over a clause expression list. -/
def jsonExtractArgsList (l : List Expr) : List ExprList :=
  (l.map jsonExtractArgs).flatten

/-- Occurrence collection over an optional clause. -/
def jsonExtractArgsOpt : Option Expr → List ExprList
| none => []
| some e => jsonExtractArgs e

/-- Argument lists of every `json_extract` call in a `Select`. -/
def selectJxArgs (s : Select) : List ExprList :=
  jsonExtractArgsList s.targets ++ jsonExtractArgsOpt s.whereClause ++
    jsonExtractArgsList s.groupBy ++ jsonExtractArgsOpt s.having ++
    jsonExtractArgsList s.orderBy

/-- A well-formed `json_extract` occurrence for input relation `df`: its
first argument is an identifier whose last part names a column of `df`. -/
def goodJx (df : DF) (al : ExprList) : Prop :=
  ∃ ps c, ExprList.headOpt al = some (.identifier ps) ∧ ps.getLast? = some c ∧
    c ∈ dfColNames df

/-- JSON text of one flat scalar; `none` models a value
`CustomJSONEncoder.encode` raises on. -/
def jvalEncode : JVal → Option String
| .jstr s => some ("\"" ++ s ++ "\"")
| .jint n => some (toString n)
| .jbad _ => none

/-- JSON text encoding of a structured cell (lists and dicts only). -/
def jsonEncodeCell : Cell → Option String
| .listV xs =>
  (xs.mapM jvalEncode).map (fun ps => "[" ++ String.intercalate ", " ps ++ "]")
| .dictV kvs =>
  (kvs.mapM (fun kv => (jvalEncode kv.2).map (fun v => "\"" ++ kv.1 ++ "\": " ++ v))).map
    (fun ps => "\x7b" ++ String.intercalate ", " ps ++ "\x7d")
| _ => none

/-- Source `_convert` (sql.py lines 72-77): dict/list values are replaced by
their JSON text; an encoding failure passes the value through unchanged;
scalars pass through. -/
def convertCell : Cell → Cell
| .listV xs =>
  match jsonEncodeCell (.listV xs) with
  | some s => .strV s
  | none => .listV xs
| .dictV kvs =>
  match jsonEncodeCell (.dictV kvs) with
  | some s => .strV s
  | none => .dictV kvs
| c => c

/-- Assignment `df[column] = df[column].apply(_convert)`: every column carrying the
label has its values converted (the dtype of an object column is
unchanged by `apply`). -/
def convertColInDf (df : DF) (name : String) : DF :=
  ⟨df.cols.map (fun nc =>
    if nc.1 = name then (nc.1, ⟨nc.2.dtype, nc.2.values.map convertCell⟩) else nc)⟩

/-- The `for column in json_columns` loop (sql.py lines 79-80): reading
`df[column]` on a missing label raises KeyError; the error value carries
the partially converted frame (earlier columns were already mutated in
place in the caller's object). -/
def convertJsonColumns (df : DF) : List String → Except (QErr × DF) DF
| [] => .ok df
| c :: rest =>
  if c ∈ dfColNames df then convertJsonColumns (convertColInDf df c) rest
  else .error (.keyErr c, df)

/-- Source `render.get_string` with `with_failback=False` then, only on an
exception, `with_failback=True` (sql.py lines 84-90); the strict failure
is logged and dropped. The two rendering modes are external collaborators
(`SqlalchemyRender`), taken as function parameters. -/
def renderWithFallback (strict lenient : Select → Except String String)
    (q : Select) : Except String String :=
  match strict q with
  | .ok s => .ok s
  | .error _ => lenient q

/-- The table names the `TRAINING_OPTIONS` workaround fires for. -/
def workaroundTables : List String := ["models", "predictors", "models_versions"]

/-- Cast `df.astype` to string dtype of `TRAINING_OPTIONS`: every column carrying the
label becomes a string-dtype column; pandas `astype(string)` keeps
missing values missing and stringifies everything else. -/
def astypeTrainingString (df : DF) : DF :=
  ⟨df.cols.map (fun nc =>
    if nc.1 = "TRAINING_OPTIONS" then
      (nc.1, ⟨.stringD, nc.2.values.map (fun v =>
        match v with
        | .nullV => .nullV
        | .nanV => .nanV
        | c => .strV (cellRepr c))⟩)
    else nc)⟩

/-- The duckdb `TypeMismatchException` workaround (sql.py lines 92-95):
applied when the relation is non-empty, the source table name is one of
the known names (case-insensitively), and the column is present. The
result is a fresh frame (`df.astype` returns a copy; the caller's object
is no longer aliased afterwards). -/
def applyWorkaround (df : DF) (tableName : String) : DF :=
  if 0 < dfLen df ∧ strToLower tableName ∈ workaroundTables then
    if "TRAINING_OPTIONS" ∈ dfColNames df then astypeTrainingString df else df
  else df

/-- Replacement `result_df.replace(np.nan: None)`: engine NaN sentinels become the
canonical null marker. -/
def replaceNanWithNone (df : DF) : DF :=
  ⟨df.cols.map (fun nc =>
    (nc.1, ⟨nc.2.dtype, nc.2.values.map (fun v =>
      match v with
      | .nanV => .nullV
      | c => c)⟩))⟩

/-- Lookup in the `new_column_names` dict: the dict is built by one
assignment per result column in order, so a later assignment to the same
key overwrites an earlier one (last-wins lookup over the position pairs). -/
def dictLookup (m : List (String × String)) (k : String) : Option String :=
  (m.reverse.find? (fun p => p.1 = k)).map Prod.snd

/-- The column identity map of sql.py lines 109-116: one entry per result
column, positionally paired with the engine description names. -/
def buildRenameMap (rcols dnames : List String) : List (String × String) :=
  rcols.zip dnames

/-- Rename `result_df.rename(new_column_names, axis=columns)`: each label is
replaced by its mapping when one exists. -/
def renameCols (df : DF) (m : List (String × String)) : DF :=
  ⟨df.cols.map (fun nc => ((dictLookup m nc.1).getD nc.1, nc.2))⟩

/-- The post-execution renaming step: `real_column_names[i]` raises
IndexError when the result frame has more columns than the description;
otherwise the rename dict is built and applied. -/
def reconcileColumns (rdf : DF) (dnames : List String) : Except QErr DF :=
  if (dfColNames rdf).length ≤ dnames.length then
    .ok (renameCols rdf (buildRenameMap (dfColNames rdf) dnames))
  else .error .indexErr

/-- Engine session operations, in the order the code performs them. -/
inductive Event
| connectEv
| registerEv (name : String)
| executeEv (sql : String)
| unregisterEv (name : String)
| closeEv
deriving DecidableEq, Repr

deriving instance DecidableEq for Except

/-- Observable outcome of one `query_df` call: the returned (or raised)
result, the engine-session event trace, the final state of the caller's
DataFrame object (the code mutates it in place through the `df` alias
until `df.astype` rebinds the local name), and the final state of the
caller's query AST (shielded by the deep copy on entry). -/
structure RunOutcome where
  result : Except QErr DF
  events : List Event
  callerDf : DF
  callerQuery : Query
deriving DecidableEq

/-- Source `query_df(df, query, session)` (sql.py lines 19-117). The external
collaborators are parameters: `strict`/`lenient` are the two
`SqlalchemyRender.get_string` modes, `engineExec` is duckdb
register-execute-fetch (returning the result frame and the description
column names). String inputs (which go through `parse_sql`) are out of
scope; the query is taken as an already-parsed AST, deep-copied on entry.
The event trace records connect, register, execute, unregister, close in
source order; note the source has no try/finally around execution. -/
def query_df (df0 : DF) (query : Query) (session : Option String)
    (strict lenient : Select → Except String String)
    (engineExec : String → DF → Except String (DF × List String)) : RunOutcome :=
  match query with
  | .other _ => ⟨.error .notSupported, [], df0, query⟩
  | .select s0 =>
    match s0.from_table with
    | some (.identifier parts0) =>
      (match parts0 with
       | [] => ⟨.error .indexErr, [], df0, query⟩
       | tableName :: _ =>
         let s1 := Select.mk s0.targets (some (.identifier ["df_table"]))
           s0.whereClause s0.groupBy s0.having s0.orderBy
         match adaptSelect session s1 with
         | .error e => ⟨.error e, [], df0, query⟩
         | .ok (s2, jsRaw) =>
           let jsonColumns := dedupKeep jsRaw
           match convertJsonColumns df0 jsonColumns with
           | .error ed => ⟨.error ed.1, [], ed.2, query⟩
           | .ok df1 =>
             match renderWithFallback strict lenient s2 with
             | .error msg => ⟨.error (.renderErr msg), [], df1, query⟩
             | .ok queryStr =>
               let rebound : Prop := (0 < dfLen df1 ∧
                 strToLower tableName ∈ workaroundTables) ∧
                 "TRAINING_OPTIONS" ∈ dfColNames df1
               let df2 := applyWorkaround df1 tableName
               let df3 := infer_and_convert_types df2
               let callerFinal := if rebound then df1 else df3
               match engineExec queryStr df3 with
               | .error msg =>
                 ⟨.error (.execErr msg),
                  [.connectEv, .registerEv "df_table", .executeEv queryStr],
                  callerFinal, query⟩
               | .ok rd =>
                 let rdf1 := replaceNanWithNone rd.1
                 let evs := [Event.connectEv, .registerEv "df_table",
                   .executeEv queryStr, .unregisterEv "df_table", .closeEv]
                 match reconcileColumns rdf1 rd.2 with
                 | .error e => ⟨.error e, evs, callerFinal, query⟩
                 | .ok out => ⟨.ok out, evs, callerFinal, query⟩)
    | _ => ⟨.error .notSupported, [], df0, query⟩

/-- Decidable form of a well-formed `json_extract` occurrence: the first
argument is an identifier whose last part names a column of `df`. -/
def goodJxB (df : DF) (al : ExprList) : Bool :=
  match ExprList.headOpt al with
  | some (.identifier ps) =>
    match ps.getLast? with
    | some c => c ∈ dfColNames df
    | none => false
  | _ => false

/-! Concrete inputs used by the witnesses and counterexamples below. -/

/-- A two-column relation of numeric-looking text. -/
def wDf : DF :=
  ⟨[("id", ⟨.objectD, [.strV "1", .strV "2"]⟩),
    ("name", ⟨.objectD, [.strV "a", .strV "b"]⟩)]⟩

/-- Query `SELECT * FROM t`. -/
def wQuery : Query :=
  .select (Select.mk [.star] (some (.identifier ["t"])) none [] none [])

/-- A strict renderer that succeeds. -/
def wStrictOk : Select → Except String String := fun _ => .ok "STRICT SQL"

/-- A strict renderer that raises. -/
def wStrictErr : Select → Except String String := fun _ => .error "strict failed"

/-- A lenient renderer that succeeds. -/
def wLenientOk : Select → Except String String := fun _ => .ok "LENIENT SQL"

/-- A lenient renderer that raises. -/
def wLenientErr : Select → Except String String := fun _ => .error "lenient failed too"

/-- An engine execution returning one column labelled by the engine,
described as `id`. -/
def wExecOk : String → DF → Except String (DF × List String) :=
  fun _ _ => .ok (⟨[("id_1", ⟨.floatD, [.numV 1 0, .numV 2 0]⟩)]⟩, ["id"])

/-- An engine execution that raises. -/
def wExecErr : String → DF → Except String (DF × List String) :=
  fun _ _ => .error "Binder Error"

/-- A `SELECT` whose source is not a simple table reference (a join). -/
def wJoinSelect : Select :=
  Select.mk [.star] (some (.otherSource "join")) none [] none []

/-- Call `TRUNCATE(3.14159)`. -/
def wTrunc1 : Expr :=
  .function "TRUNCATE" (.cons (.constant (.numV 314159 5)) .nil)

/-- Call `ROUND(3.14159, 0)`. -/
def wTrunc1Res : Expr :=
  .function "round" (.cons (.constant (.numV 314159 5)) (.cons (.constant (.intV 0)) .nil))

/-- Call `TRUNCATE(3.14159, 2)`. -/
def wTrunc2 : Expr :=
  .function "TRUNCATE" (.cons (.constant (.numV 314159 5)) (.cons (.constant (.intV 2)) .nil))

/-- Call `ROUND(3.14159, 2)`. -/
def wTrunc2Res : Expr :=
  .function "round" (.cons (.constant (.numV 314159 5)) (.cons (.constant (.intV 2)) .nil))

/-- An engine result frame with mangled labels. -/
def wEngineOut : DF :=
  ⟨[("lower_a", ⟨.floatD, [.numV 1 0]⟩), ("col_1", ⟨.floatD, [.numV 2 0]⟩)]⟩

/-- A column already carrying the float dtype. -/
def wColFloat : Column := ⟨.floatD, [.numV 15 1]⟩

/-- Numeric-looking text. -/
def wColNumText : Column := ⟨.objectD, [.strV "1.5", .strV "2"]⟩

/-- Date-like text with a missing value. -/
def wColDateText : Column := ⟨.objectD, [.strV "2020-01-31", .nullV]⟩

/-- A value convertible to int but not to float nor to a date. -/
def wColIntCast : Column := ⟨.objectD, [.intCastV 7]⟩

/-- Mixed text that defeats all three parses. -/
def wColMixed : Column := ⟨.objectD, [.strV "abc", .intV 3]⟩

/-- A zero-row relation with one generic (object) column. -/
def wEmptyObjDf : DF := ⟨[("a", ⟨.objectD, []⟩)]⟩

/-- A zero-row relation mixing a generic and a specifically-typed column. -/
def wEmptyMixDf : DF := ⟨[("a", ⟨.objectD, []⟩), ("b", ⟨.intD, []⟩)]⟩

/-- A non-empty `models` relation with a structured `TRAINING_OPTIONS`
column. -/
def wModelsDf : DF :=
  ⟨[("NAME", ⟨.objectD, [.strV "m1"]⟩),
    ("TRAINING_OPTIONS", ⟨.objectD, [.dictV [("target", .jstr "y")]]⟩)]⟩

/-- A relation with a JSON-bearing column `a` and numeric text column `b`. -/
def wJsonDf : DF :=
  ⟨[("a", ⟨.objectD, [.dictV [("k", .jint 1)], .dictV [("k", .jint 2)]]⟩),
    ("b", ⟨.objectD, [.strV "1", .strV "2"]⟩)]⟩

/-- Query `SELECT json_extract(a, path) FROM t`. -/
def wJsonQuery : Query :=
  .select (Select.mk
    [.function "json_extract"
      (.cons (.identifier ["a"]) (.cons (.constant (.strV "$.k")) .nil))]
    (some (.identifier ["t"])) none [] none [])

/-- The state of the caller's relation after `query_df` on `wJsonDf` /
`wJsonQuery`: the dicts of `a` were JSON-encoded in place, and `b` was
normalized to float dtype in place. -/
def wJsonDfAfter : DF :=
  ⟨[("a", ⟨.objectD, [.strV "\x7b\"k\": 1\x7d", .strV "\x7b\"k\": 2\x7d"]⟩),
    ("b", ⟨.floatD, [.numV 1 0, .numV 2 0]⟩)]⟩

/-- A `SELECT json_extract(zzz, path) FROM t` whose extraction column is
absent from `wDf`. -/
def wBadJxSelect : Select :=
  Select.mk
    [.function "json_extract"
      (.cons (.identifier ["zzz"]) (.cons (.constant (.strV "$.k")) .nil))]
    (some (.identifier ["t"])) none [] none []

/-- C6: rendering tries the strict mode first; the lenient fallback runs
iff strict raises (when strict succeeds the outcome does not depend on the
lenient renderer at all); a strict failure is not surfaced when the
fallback succeeds, and when the fallback also raises, that (fallback)
failure propagates with no further retry. -/
theorem C6_render_fallback (strict lenient : Select → Except String String) (q : Select) :
    (∀ s, strict q = .ok s →
      renderWithFallback strict lenient q = .ok s ∧
      ∀ lenient2, renderWithFallback strict lenient q = renderWithFallback strict lenient2 q) ∧
    (∀ e, strict q = .error e → renderWithFallback strict lenient q = lenient q) ∧
    (∀ e e2, strict q = .error e → lenient q = .error e2 →
      renderWithFallback strict lenient q = .error e2) := by
  refine ⟨?_, ?_, ?_⟩ <;> intros <;> simp_all [renderWithFallback]

/-- Witness for C6 at concrete renderers: strict failure with failing
fallback propagates the fallback's failure; strict success is returned. -/
theorem C6_render_fallback_witness :
    renderWithFallback wStrictErr wLenientErr wJoinSelect = .error "lenient failed too" ∧
    renderWithFallback wStrictOk wLenientErr wJoinSelect = .ok "STRICT SQL" := by
  constructor
  · exact (C6_render_fallback wStrictErr wLenientErr wJoinSelect).2.2
      "strict failed" "lenient failed too" rfl rfl
  · exact ((C6_render_fallback wStrictOk wLenientErr wJoinSelect).1 "STRICT SQL" rfl).1

/-- C7: a function node whose name lower-cases to `truncate` is renamed to
`round`, and exactly when it carried one argument a zero precision
argument is appended (the other arguments are those produced by the
traversal of the original argument list). -/
theorem C7_truncate_round (session : Option String) (op : String) (args args2 : ExprList)
    (js2 : List String) (hop : strToLower op = "truncate")
    (hargs : adaptArgs session args = .ok (args2, js2)) :
    adaptExpr session (.function op args) = .ok (.function "round"
      (if ExprList.length args = 1
        then ExprList.append args2 (.cons (.constant (.intV 0)) .nil)
        else args2), js2) := by
  simp [adaptExpr, hop, hargs, jxHead]

/-- Witness for C7: `TRUNCATE(3.14159)` rewrites to `ROUND(3.14159, 0)`
and `TRUNCATE(3.14159, 2)` rewrites to `ROUND(3.14159, 2)`. -/
theorem C7_truncate_round_witness :
    adaptExpr none wTrunc1 = .ok (wTrunc1Res, []) ∧
    adaptExpr none wTrunc2 = .ok (wTrunc2Res, []) := by
  constructor
  · have h := C7_truncate_round none "TRUNCATE"
      (.cons (.constant (.numV 314159 5)) .nil)
      (.cons (.constant (.numV 314159 5)) .nil) [] (by decide) (by decide)
    exact h.trans (by decide)
  · have h := C7_truncate_round none "TRUNCATE"
      (.cons (.constant (.numV 314159 5)) (.cons (.constant (.intV 2)) .nil))
      (.cons (.constant (.numV 314159 5)) (.cons (.constant (.intV 2)) .nil)) [] (by decide) (by decide)
    exact h.trans (by decide)

/-- C3: a query whose root is not a SELECT node, or whose source is not a
single simple table reference, is rejected with the descriptive failure
before any engine interaction: the event trace is empty (nothing was
registered, no SQL was executed) and the caller's relation is untouched. -/
theorem C3_shape_rejected (df : DF) (q : Query) (session : Option String)
    (strict lenient : Select → Except String String)
    (engineExec : String → DF → Except String (DF × List String))
    (h : ∀ s parts, q = .select s → s.from_table ≠ some (.identifier parts)) :
    query_df df q session strict lenient engineExec =
      ⟨.error .notSupported, [], df, q⟩ := by
  cases q with
  | other tag => rfl
  | select s =>
    cases hft : s.from_table with
    | none => simp [query_df, hft]
    | some fn =>
      cases fn with
      | identifier ps => exact absurd hft (h s ps rfl)
      | otherSource tag => simp [query_df, hft]

/-- Witness for C3 at concrete inputs: a non-SELECT root and a join-shaped
source are both rejected with an empty engine trace. -/
theorem C3_shape_rejected_witness :
    query_df wDf (.other "insert") none wStrictOk wLenientOk wExecOk =
      ⟨.error .notSupported, [], wDf, .other "insert"⟩ ∧
    query_df wDf (.select wJoinSelect) none wStrictOk wLenientOk wExecOk =
      ⟨.error .notSupported, [], wDf, .select wJoinSelect⟩ := by
  constructor
  · exact C3_shape_rejected wDf (.other "insert") none wStrictOk wLenientOk wExecOk
      (fun s parts hq => nomatch hq)
  · refine C3_shape_rejected wDf (.select wJoinSelect) none wStrictOk wLenientOk wExecOk ?_
    intro s parts hq
    cases hq
    simp [wJoinSelect]

/-- C4: `infer_column_type` skips non-generic columns entirely and, on a
generic (object) column, applies the coercions in strict priority order:
float; datetime only when float fails; int only when datetime also fails;
string conversion when all three fail. -/
theorem C4_infer_priority (c : Column) :
    (c.dtype ≠ .objectD → infer_column_type c = c) ∧
    (∀ r, c.dtype = .objectD → astypeFloat c = some r → infer_column_type c = r) ∧
    (∀ r, c.dtype = .objectD → astypeFloat c = none → toDatetime c = some r →
      infer_column_type c = r) ∧
    (∀ r, c.dtype = .objectD → astypeFloat c = none → toDatetime c = none →
      astypeInt c = some r → infer_column_type c = r) ∧
    (c.dtype = .objectD → astypeFloat c = none → toDatetime c = none →
      astypeInt c = none → infer_column_type c = astypeStr c) := by
  unfold infer_column_type
  refine ⟨?_, ?_, ?_, ?_, ?_⟩ <;> intros <;> simp_all

/-- Witness for C4, one concrete column per branch: a float-dtype column
is untouched; numeric text coerces to float; date text (float parse
failed) coerces to datetime; an int-only-castable object (float and date
parses failed) coerces to int; mixed text falls back to string. -/
theorem C4_infer_priority_witness :
    infer_column_type wColFloat = wColFloat ∧
    infer_column_type wColNumText = ⟨.floatD, [.numV 15 1, .numV 2 0]⟩ ∧
    infer_column_type wColDateText = ⟨.datetimeD, [.dateV 2020 1 31, .nanV]⟩ ∧
    infer_column_type wColIntCast = ⟨.intD, [.intV 7]⟩ ∧
    infer_column_type wColMixed = astypeStr wColMixed := by
  refine ⟨?_, ?_, ?_, ?_, ?_⟩
  · exact (C4_infer_priority wColFloat).1 (by decide)
  · exact (C4_infer_priority wColNumText).2.1 _ (by decide) (by decide)
  · exact (C4_infer_priority wColDateText).2.2.1 _ (by decide) (by decide) (by decide)
  · exact (C4_infer_priority wColIntCast).2.2.2.1 _ (by decide) (by decide) (by decide) (by decide)
  · exact (C4_infer_priority wColMixed).2.2.2.2 (by decide) (by decide) (by decide) (by decide)

/-- Counterexample to C5 as stated: a zero-row relation with one generic
(object) column does not keep its original representation — the empty
sample passes `astype(float)` vacuously, so the column's dtype changes
from object to float. -/
theorem C5_counterexample :
    infer_and_convert_types wEmptyObjDf ≠ wEmptyObjDf ∧
    infer_and_convert_types wEmptyObjDf = ⟨[("a", ⟨.floatD, []⟩)]⟩ := by
  decide

/-- C5 amended: on a zero-row relation, every column's (empty) value
sequence is unchanged and every specifically-typed column keeps its dtype,
but each generic (object) column is coerced to the float dtype, because
the float parse succeeds vacuously on the empty sample. -/
theorem C5_amended (df : DF) (_hlen : dfLen df = 0)
    (hvals : ∀ nc ∈ df.cols, nc.2.values = ([] : List Cell)) :
    infer_and_convert_types df =
      ⟨df.cols.map (fun nc =>
        if nc.2.dtype = .objectD then (nc.1, ⟨.floatD, []⟩) else nc)⟩ := by
  unfold infer_and_convert_types
  congr 1
  apply List.map_congr_left
  intro nc hnc
  have hv := hvals nc hnc
  rcases nc with ⟨name, d, vs⟩
  simp only at hv
  subst hv
  cases d
  case objectD =>
    simp [inferEntry,
      (by decide : infer_column_type ⟨.objectD, ([] : List Cell)⟩ = ⟨.floatD, []⟩)]
  case floatD =>
    simp [inferEntry,
      (by decide : infer_column_type ⟨.floatD, ([] : List Cell)⟩ = ⟨.floatD, []⟩)]
  case intD =>
    simp [inferEntry,
      (by decide : infer_column_type ⟨.intD, ([] : List Cell)⟩ = ⟨.intD, []⟩)]
  case datetimeD =>
    simp [inferEntry,
      (by decide : infer_column_type ⟨.datetimeD, ([] : List Cell)⟩ = ⟨.datetimeD, []⟩)]
  case stringD =>
    simp [inferEntry,
      (by decide : infer_column_type ⟨.stringD, ([] : List Cell)⟩ = ⟨.stringD, []⟩)]

/-- Witness for the amended C5: on a concrete zero-row relation the
object column becomes float dtype and the int column is unchanged. -/
theorem C5_amended_witness :
    infer_and_convert_types wEmptyMixDf =
      ⟨[("a", ⟨.floatD, []⟩), ("b", ⟨.intD, []⟩)]⟩ := by
  have h := C5_amended wEmptyMixDf (by decide) (by decide)
  exact h.trans (by decide)

/-- A key-preserving map commutes with label search: the find of a label
in the mapped columns is the map of the find. -/
theorem find_map_keyed (g : String × Column → String × Column)
    (hg : ∀ nc, (g nc).1 = nc.1) (l : List (String × Column)) (n : String) :
    (l.map g).find? (fun p => p.1 = n) = (l.find? (fun p => p.1 = n)).map g := by
  induction l with
  | nil => rfl
  | cons a t ih =>
    simp only [List.map_cons, List.find?_cons]
    rw [hg a]
    by_cases hn : a.1 = n
    · simp [hn]
    · simp [hn, ih]

/-- Every entry function of `infer_and_convert_types` keeps the label. -/
theorem inferEntry_fst (df : DF) (nc : String × Column) :
    (inferEntry df nc).1 = nc.1 := by
  unfold inferEntry
  split <;> rfl

/-- The entry function of the `TRAINING_OPTIONS` astype keeps the label. -/
theorem trainEntry_fst (nc : String × Column) :
    ((fun nc : String × Column =>
      if nc.1 = "TRAINING_OPTIONS" then
        (nc.1, (⟨.stringD, nc.2.values.map (fun v =>
          match v with
          | .nullV => Cell.nullV
          | .nanV => Cell.nanV
          | c => .strV (cellRepr c))⟩ : Column))
      else nc) nc).1 = nc.1 := by
  dsimp only
  split <;> rfl

/-- A string-dtype column is left alone by `infer_column_type`. -/
theorem infer_column_type_stringD (l : List Cell) :
    infer_column_type ⟨.stringD, l⟩ = ⟨.stringD, l⟩ := by
  simp [infer_column_type]

/-- A string-dtype column is left alone by the per-column update of
`infer_and_convert_types`. -/
theorem inferEntry_stringD (df : DF) (n : String) (l : List Cell) :
    inferEntry df (n, ⟨.stringD, l⟩) = (n, ⟨.stringD, l⟩) := by
  simp [inferEntry, infer_column_type_stringD]

/-- C8: under a source table whose lower-cased name is `models`,
`predictors` or `models_versions`, on a non-empty relation containing a
`TRAINING_OPTIONS` column, that column carries the string (text) dtype
after the workaround followed by type normalization, whatever its
original content was. -/
theorem C8_training_options (df : DF) (tableName : String)
    (hlen : 0 < dfLen df)
    (htab : strToLower tableName ∈ workaroundTables)
    (hcol : "TRAINING_OPTIONS" ∈ dfColNames df) :
    ∃ col, getCol (infer_and_convert_types (applyWorkaround df tableName))
      "TRAINING_OPTIONS" = some col ∧ col.dtype = .stringD := by
  have hwk : applyWorkaround df tableName = astypeTrainingString df := by
    unfold applyWorkaround
    rw [if_pos ⟨hlen, htab⟩, if_pos hcol]
  rw [hwk]
  have hfind : ∃ nc0, df.cols.find? (fun p => p.1 = "TRAINING_OPTIONS") = some nc0 := by
    have : (df.cols.find? (fun p => p.1 = "TRAINING_OPTIONS")).isSome := by
      rw [List.find?_isSome]
      obtain ⟨nc, hnc, hfst⟩ := List.exists_of_mem_map hcol
      exact ⟨nc, hnc, by simp [hfst]⟩
    exact Option.isSome_iff_exists.mp this
  obtain ⟨nc0, hnc0⟩ := hfind
  have hname : nc0.1 = "TRAINING_OPTIONS" := by
    have := List.find?_some hnc0
    simpa using this
  unfold infer_and_convert_types astypeTrainingString getCol
  dsimp only
  rw [find_map_keyed (inferEntry _) (inferEntry_fst _),
      find_map_keyed _ trainEntry_fst, hnc0]
  rcases nc0 with ⟨n0, c0⟩
  simp only at hname
  subst hname
  simp [inferEntry_stringD]

/-- Witness for C8: a non-empty `Models` relation whose
`TRAINING_OPTIONS` column holds a dict ends up with that column in
string dtype. -/
theorem C8_training_options_witness :
    ∃ col, getCol (infer_and_convert_types (applyWorkaround wModelsDf "Models"))
      "TRAINING_OPTIONS" = some col ∧ col.dtype = .stringD :=
  C8_training_options wModelsDf "Models" (by decide) (by decide) (by decide)

/-- Counterexample to C1 as stated: on a run where executing the rendered
SQL raises (the engine reports a failure), the registered relation is
never unregistered and the connection is never closed — the session is
not torn down on that exit path (there is no try/finally around
execution). -/
theorem C1_counterexample :
    (query_df wDf wQuery none wStrictOk wLenientOk wExecErr).result =
      .error (.execErr "Binder Error") ∧
    Event.registerEv "df_table" ∈ (query_df wDf wQuery none wStrictOk wLenientOk wExecErr).events ∧
    Event.unregisterEv "df_table" ∉ (query_df wDf wQuery none wStrictOk wLenientOk wExecErr).events ∧
    Event.closeEv ∉ (query_df wDf wQuery none wStrictOk wLenientOk wExecErr).events := by
  decide

/-- A failure of the renaming step is always the positional IndexError. -/
theorem reconcileColumns_error_eq (rdf : DF) (dnames : List String) (e : QErr)
    (h : reconcileColumns rdf dnames = .error e) : e = .indexErr := by
  unfold reconcileColumns at h
  split at h <;> simp_all

/-- C1 amended: the engine session is torn down (unregister then close)
on the successful path, where the trace is exactly
connect-register-execute-unregister-close; but on any path where
executing the rendered SQL raises, neither the unregister nor the close
ever happens. -/
theorem C1_amended (df : DF) (q : Query) (session : Option String)
    (strict lenient : Select → Except String String)
    (engineExec : String → DF → Except String (DF × List String)) :
    (∀ out, (query_df df q session strict lenient engineExec).result = .ok out →
      ∃ sql, (query_df df q session strict lenient engineExec).events =
        [.connectEv, .registerEv "df_table", .executeEv sql,
         .unregisterEv "df_table", .closeEv]) ∧
    (∀ msg, (query_df df q session strict lenient engineExec).result =
        .error (.execErr msg) →
      Event.unregisterEv "df_table" ∉ (query_df df q session strict lenient engineExec).events ∧
      Event.closeEv ∉ (query_df df q session strict lenient engineExec).events) := by
  cases q with
  | other tag => refine ⟨?_, ?_⟩ <;> intro x h <;> simp [query_df] at h
  | select s0 =>
    cases hft : s0.from_table with
    | none => refine ⟨?_, ?_⟩ <;> intro x h <;> simp [query_df, hft] at h
    | some fn =>
      cases fn with
      | otherSource t => refine ⟨?_, ?_⟩ <;> intro x h <;> simp [query_df, hft] at h
      | identifier parts =>
        cases parts with
        | nil => refine ⟨?_, ?_⟩ <;> intro x h <;> simp [query_df, hft] at h
        | cons tn rest =>
          simp only [query_df, hft]
          cases hadapt : adaptSelect session (Select.mk s0.targets
              (some (.identifier ["df_table"])) s0.whereClause s0.groupBy
              s0.having s0.orderBy) with
          | error e =>
            simp only [hadapt]
            refine ⟨?_, ?_⟩ <;> intro x h <;> simp_all
          | ok pr =>
            rcases pr with ⟨s2, jsRaw⟩
            simp only [hadapt]
            cases hconv : convertJsonColumns df (dedupKeep jsRaw) with
            | error ed =>
              simp only [hconv]
              refine ⟨?_, ?_⟩ <;> intro x h <;> simp_all
            | ok df1 =>
              simp only [hconv]
              cases hrender : renderWithFallback strict lenient s2 with
              | error msg =>
                simp only [hrender]
                refine ⟨?_, ?_⟩ <;> intro x h <;> simp_all
              | ok queryStr =>
                simp only [hrender]
                cases hexec : engineExec queryStr
                    (infer_and_convert_types (applyWorkaround df1 tn)) with
                | error msg2 =>
                  simp only [hexec]
                  refine ⟨?_, ?_⟩ <;> intro x h <;> simp_all
                | ok rd =>
                  simp only [hexec]
                  cases hrec : reconcileColumns (replaceNanWithNone rd.1) rd.2 with
                  | error e =>
                    simp only [hrec]
                    refine ⟨?_, ?_⟩ <;> intro x h <;> simp at h ⊢
                    rw [h] at hrec
                    exact absurd (reconcileColumns_error_eq _ _ _ hrec) (by simp)
                  | ok out =>
                    simp only [hrec]
                    refine ⟨?_, ?_⟩ <;> intro x h <;> simp at h ⊢

/-- Witness for the amended C1: a successful concrete run shows the full
five-event trace; a failing concrete execution never unregisters nor
closes. -/
theorem C1_amended_witness :
    (∃ sql, (query_df wDf wQuery none wStrictOk wLenientOk wExecOk).events =
      [.connectEv, .registerEv "df_table", .executeEv sql,
       .unregisterEv "df_table", .closeEv]) ∧
    (Event.unregisterEv "df_table" ∉ (query_df wDf wQuery none wStrictOk wLenientOk wExecErr).events ∧
     Event.closeEv ∉ (query_df wDf wQuery none wStrictOk wLenientOk wExecErr).events) := by
  constructor
  · exact (C1_amended wDf wQuery none wStrictOk wLenientOk wExecOk).1
      ⟨[("id", ⟨.floatD, [.numV 1 0, .numV 2 0]⟩)]⟩ (by decide)
  · exact (C1_amended wDf wQuery none wStrictOk wLenientOk wExecErr).2
      "Binder Error" (by decide)

/-- C9: `query_df` mutates the caller's relation in place — after a
successful concrete call, the caller-visible DataFrame object holds
JSON-encoded text where its dicts were and a float column where its
numeric text was, while the caller's query AST object is unchanged (it
was shielded by the deep copy). -/
theorem C9_caller_mutation :
    (∃ out, (query_df wJsonDf wJsonQuery none wStrictOk wLenientOk wExecOk).result = .ok out) ∧
    (query_df wJsonDf wJsonQuery none wStrictOk wLenientOk wExecOk).callerDf ≠ wJsonDf ∧
    (query_df wJsonDf wJsonQuery none wStrictOk wLenientOk wExecOk).callerDf = wJsonDfAfter ∧
    (query_df wJsonDf wJsonQuery none wStrictOk wLenientOk wExecOk).callerQuery = wJsonQuery := by
  refine ⟨⟨⟨[("id", ⟨.floatD, [.numV 1 0, .numV 2 0]⟩)]⟩, by decide⟩, by decide, by decide, by decide⟩

/-- Search of a concatenation: the left part wins when it matches. -/
theorem find?_append {α : Type} (p : α → Bool) (l1 l2 : List α) :
    (l1 ++ l2).find? p = match l1.find? p with
      | some x => some x
      | none => l2.find? p := by
  induction l1 with
  | nil => simp
  | cons a t ih =>
    by_cases h : p a
    · simp [List.find?_cons, h]
    · simp [List.find?_cons, h, ih]

/-- A dict lookup skips an entry whose key differs. -/
theorem dictLookup_cons_ne (n d m : String) (z : List (String × String))
    (hm : m ≠ n) : dictLookup ((n, d) :: z) m = dictLookup z m := by
  unfold dictLookup
  rw [List.reverse_cons, find?_append]
  cases hz : z.reverse.find? (fun p => p.1 = m) with
  | some x => simp
  | none => simp [List.find?_cons, Ne.symm hm]

/-- A dict lookup finds the entry whose key no later entry shadows. -/
theorem dictLookup_cons_self (n d : String) (z : List (String × String))
    (hz : ∀ x ∈ z, x.1 ≠ n) : dictLookup ((n, d) :: z) n = some d := by
  unfold dictLookup
  rw [List.reverse_cons, find?_append]
  have hnone : z.reverse.find? (fun p => p.1 = n) = none := by
    rw [List.find?_eq_none]
    intro x hx
    simp [hz x (List.mem_reverse.mp hx)]
  rw [hnone]
  simp [List.find?_cons]

/-- Renaming each label of a duplicate-free list through the positional
dict built from it recovers exactly the paired names. -/
theorem renameNames (ns : List String) : ∀ ds : List String, ns.Nodup →
    ns.length = ds.length →
    ns.map (fun n => (dictLookup (ns.zip ds) n).getD n) = ds := by
  induction ns with
  | nil => intro ds _ hlen; cases ds with
    | nil => rfl
    | cons d dt => simp at hlen
  | cons n nt ih =>
    intro ds hnodup hlen
    cases ds with
    | nil => simp at hlen
    | cons d dt =>
      have hn : n ∉ nt := (List.nodup_cons.mp hnodup).1
      have hnd : nt.Nodup := (List.nodup_cons.mp hnodup).2
      simp only [List.zip_cons_cons, List.map_cons]
      have hhead : dictLookup ((n, d) :: nt.zip dt) n = some d := by
        apply dictLookup_cons_self
        rintro ⟨x1, x2⟩ hx heq
        exact hn (heq ▸ (List.of_mem_zip hx).1)
      rw [hhead]
      have htail : nt.map (fun m => (dictLookup ((n, d) :: nt.zip dt) m).getD m) = dt := by
        have hstep : nt.map (fun m => (dictLookup ((n, d) :: nt.zip dt) m).getD m)
            = nt.map (fun m => (dictLookup (nt.zip dt) m).getD m) := by
          apply List.map_congr_left
          intro m hm
          have hmn : m ≠ n := fun heq => hn (heq ▸ hm)
          rw [dictLookup_cons_ne n d m _ hmn]
        rw [hstep, ih dt hnd (by simpa using hlen)]
      rw [htail]
      rfl

/-- C2: the post-execution renaming makes the returned relation's column
names, in order, exactly the engine-reported description names (which the
renderer contract makes the caller's requested target-list names), as long
as the engine result labels are pairwise distinct and positionally match
the description in count. -/
theorem C2_positional_rename (rdf : DF) (dnames : List String)
    (hnodup : (dfColNames rdf).Nodup)
    (hlen : (dfColNames rdf).length = dnames.length) :
    ∃ out, reconcileColumns rdf dnames = .ok out ∧ dfColNames out = dnames := by
  unfold reconcileColumns
  rw [if_pos (le_of_eq hlen)]
  refine ⟨_, rfl, ?_⟩
  have h := renameNames (dfColNames rdf) dnames hnodup hlen
  simpa [dfColNames, renameCols, buildRenameMap, List.map_map, Function.comp] using h

/-- Witness for C2: a result frame with engine-mangled distinct labels is
renamed positionally to the description names. -/
theorem C2_positional_rename_witness :
    ∃ out, reconcileColumns wEngineOut ["A", "b"] = .ok out ∧
      dfColNames out = ["A", "b"] :=
  C2_positional_rename wEngineOut ["A", "b"] (by decide) (by decide)

mutual

/-- If the traversal succeeds on an expression, every `json_extract`
occurrence in it has an identifier first argument and its extracted
column name is among the collected names. -/
theorem adaptExpr_ok_jx (session : Option String) :
    (e : Expr) → ∀ e2 js, adaptExpr session e = .ok (e2, js) →
    ∀ al ∈ jsonExtractArgs e, ∃ ps c,
      ExprList.headOpt al = some (.identifier ps) ∧ ps.getLast? = some c ∧ c ∈ js
| .identifier parts => by
  intro e2 js _ al hal
  simp [jsonExtractArgs] at hal
| .constant v => by
  intro e2 js _ al hal
  simp [jsonExtractArgs] at hal
| .star => by
  intro e2 js _ al hal
  simp [jsonExtractArgs] at hal
| .binop op lhs rhs => by
  intro e2 js h al hal
  unfold adaptExpr at h
  cases hl : adaptExpr session lhs with
  | error e1 => rw [hl] at h; simp at h
  | ok pl =>
    rcases pl with ⟨l2, jl⟩
    rw [hl] at h
    cases hr : adaptExpr session rhs with
    | error e1 => rw [hr] at h; simp at h
    | ok pr =>
      rcases pr with ⟨r2, jr⟩
      rw [hr] at h
      simp only [Except.ok.injEq, Prod.mk.injEq] at h
      obtain ⟨-, hjs⟩ := h
      subst hjs
      unfold jsonExtractArgs at hal
      rcases List.mem_append.mp hal with h1 | h2
      · obtain ⟨ps, c, hh1, hh2, hh3⟩ := adaptExpr_ok_jx session lhs l2 jl hl al h1
        exact ⟨ps, c, hh1, hh2, List.mem_append_left _ hh3⟩
      · obtain ⟨ps, c, hh1, hh2, hh3⟩ := adaptExpr_ok_jx session rhs r2 jr hr al h2
        exact ⟨ps, c, hh1, hh2, List.mem_append_right _ hh3⟩
| .function op args => by
  intro e2 js h al hal
  unfold adaptExpr at h
  by_cases hdb : strToLower op = "database" ∧ ExprList.length args = 0
  · have hargs0 : args = .nil := by
      cases args with
      | nil => rfl
      | cons a t => exact absurd hdb.2 (by simp [ExprList.length])
    subst hargs0
    unfold jsonExtractArgs at hal
    rw [hdb.1] at hal
    simp [jsonExtractArgsL] at hal
  · rw [if_neg hdb] at h
    cases hjx : jxHead (strToLower op) args with
    | error e1 => rw [hjx] at h; simp at h
    | ok jhead =>
      rw [hjx] at h
      cases hargs : adaptArgs session args with
      | error e1 => rw [hargs] at h; simp at h
      | ok pa =>
        rcases pa with ⟨args2, js2⟩
        rw [hargs] at h
        simp only [Except.ok.injEq, Prod.mk.injEq] at h
        obtain ⟨-, hjs⟩ := h
        subst hjs
        unfold jsonExtractArgs at hal
        rcases List.mem_append.mp hal with h1 | h2
        · by_cases hje : strToLower op = "json_extract"
          · rw [if_pos hje] at h1
            obtain rfl : al = args := by simpa using h1
            rw [hje] at hjx
            unfold jxHead at hjx
            rw [if_pos rfl] at hjx
            cases al with
            | nil => simp at hjx
            | cons a t =>
              cases a with
              | identifier ps =>
                dsimp only at hjx
                cases hlast : ps.getLast? with
                | none => rw [hlast] at hjx; simp at hjx
                | some c =>
                  rw [hlast] at hjx
                  simp only [Except.ok.injEq] at hjx
                  subst hjx
                  exact ⟨ps, c, rfl, hlast,
                    List.mem_append_left _ (by simp)⟩
              | constant v => simp at hjx
              | star => simp at hjx
              | function op3 args3 => simp at hjx
              | binop op3 l3 r3 => simp at hjx
          · rw [if_neg hje] at h1
            simp at h1
        · obtain ⟨ps, c, hh1, hh2, hh3⟩ := adaptArgs_ok_jx session args args2 js2 hargs al h2
          exact ⟨ps, c, hh1, hh2, List.mem_append_right _ hh3⟩
termination_by structural e => e

/-- Occurrence soundness of the traversal over an argument list. -/
theorem adaptArgs_ok_jx (session : Option String) :
    (l : ExprList) → ∀ l2 js, adaptArgs session l = .ok (l2, js) →
    ∀ al ∈ jsonExtractArgsL l, ∃ ps c,
      ExprList.headOpt al = some (.identifier ps) ∧ ps.getLast? = some c ∧ c ∈ js
| .nil => by
  intro l2 js _ al hal
  simp [jsonExtractArgsL] at hal
| .cons a t => by
  intro l2 js h al hal
  unfold adaptArgs at h
  cases ha : adaptExpr session a with
  | error e1 => rw [ha] at h; simp at h
  | ok pa =>
    rcases pa with ⟨a2, ja⟩
    rw [ha] at h
    cases ht : adaptArgs session t with
    | error e1 => rw [ht] at h; simp at h
    | ok pt =>
      rcases pt with ⟨t2, jt⟩
      rw [ht] at h
      simp only [Except.ok.injEq, Prod.mk.injEq] at h
      obtain ⟨-, hjs⟩ := h
      subst hjs
      unfold jsonExtractArgsL at hal
      rcases List.mem_append.mp hal with h1 | h2
      · obtain ⟨ps, c, hh1, hh2, hh3⟩ := adaptExpr_ok_jx session a a2 ja ha al h1
        exact ⟨ps, c, hh1, hh2, List.mem_append_left _ hh3⟩
      · obtain ⟨ps, c, hh1, hh2, hh3⟩ := adaptArgs_ok_jx session t t2 jt ht al h2
        exact ⟨ps, c, hh1, hh2, List.mem_append_right _ hh3⟩
termination_by structural l => l

end

/-- Occurrence soundness of the traversal over a clause expression list. -/
theorem adaptList_ok_jx (session : Option String) (l : List Expr) :
    ∀ l2 js, adaptList session l = .ok (l2, js) →
    ∀ al ∈ jsonExtractArgsList l, ∃ ps c,
      ExprList.headOpt al = some (.identifier ps) ∧ ps.getLast? = some c ∧ c ∈ js := by
  induction l with
  | nil =>
    intro l2 js _ al hal
    simp [jsonExtractArgsList] at hal
  | cons e t ih =>
    intro l2 js h al hal
    unfold adaptList at h
    cases he : adaptExpr session e with
    | error e1 => rw [he] at h; simp at h
    | ok pe =>
      rcases pe with ⟨e2, je⟩
      rw [he] at h
      cases ht : adaptList session t with
      | error e1 => rw [ht] at h; simp at h
      | ok pt =>
        rcases pt with ⟨t2, jt⟩
        rw [ht] at h
        simp only [Except.ok.injEq, Prod.mk.injEq] at h
        obtain ⟨-, hjs⟩ := h
        subst hjs
        unfold jsonExtractArgsList at hal
        simp only [List.map_cons, List.flatten_cons] at hal
        rcases List.mem_append.mp hal with h1 | h2
        · obtain ⟨ps, c, hh1, hh2, hh3⟩ := adaptExpr_ok_jx session e e2 je he al h1
          exact ⟨ps, c, hh1, hh2, List.mem_append_left _ hh3⟩
        · obtain ⟨ps, c, hh1, hh2, hh3⟩ := ih t2 jt ht al (by
            simpa [jsonExtractArgsList] using h2)
          exact ⟨ps, c, hh1, hh2, List.mem_append_right _ hh3⟩

/-- Occurrence soundness of the traversal over an optional clause. -/
theorem adaptOpt_ok_jx (session : Option String) (o : Option Expr) :
    ∀ o2 js, adaptOpt session o = .ok (o2, js) →
    ∀ al ∈ jsonExtractArgsOpt o, ∃ ps c,
      ExprList.headOpt al = some (.identifier ps) ∧ ps.getLast? = some c ∧ c ∈ js := by
  cases o with
  | none =>
    intro o2 js _ al hal
    simp [jsonExtractArgsOpt] at hal
  | some e =>
    intro o2 js h al hal
    unfold adaptOpt at h
    dsimp only at h
    cases he : adaptExpr session e with
    | error e1 => rw [he] at h; simp at h
    | ok pe =>
      rcases pe with ⟨e2, je⟩
      rw [he] at h
      simp only [Except.ok.injEq, Prod.mk.injEq] at h
      obtain ⟨-, hjs⟩ := h
      subst hjs
      exact adaptExpr_ok_jx session e e2 je he al hal

/-- Occurrence soundness of the whole `Select` traversal: on success,
every `json_extract` occurrence in the query is well-shaped and its
column name is among the collected JSON column names. -/
theorem adaptSelect_ok_jx (session : Option String) (s : Select) (s2 : Select)
    (js : List String) (h : adaptSelect session s = .ok (s2, js)) :
    ∀ al ∈ selectJxArgs s, ∃ ps c,
      ExprList.headOpt al = some (.identifier ps) ∧ ps.getLast? = some c ∧ c ∈ js := by
  intro al hal
  unfold adaptSelect at h
  cases h1 : adaptList session s.targets with
  | error e1 => rw [h1] at h; simp at h
  | ok p1 =>
    rcases p1 with ⟨ts, j1⟩
    rw [h1] at h
    cases h2 : adaptOpt session s.whereClause with
    | error e1 => rw [h2] at h; simp at h
    | ok p2 =>
      rcases p2 with ⟨w, j2⟩
      rw [h2] at h
      cases h3 : adaptList session s.groupBy with
      | error e1 => rw [h3] at h; simp at h
      | ok p3 =>
        rcases p3 with ⟨gs, j3⟩
        rw [h3] at h
        cases h4 : adaptOpt session s.having with
        | error e1 => rw [h4] at h; simp at h
        | ok p4 =>
          rcases p4 with ⟨hv, j4⟩
          rw [h4] at h
          cases h5 : adaptList session s.orderBy with
          | error e1 => rw [h5] at h; simp at h
          | ok p5 =>
            rcases p5 with ⟨os, j5⟩
            rw [h5] at h
            simp only [Except.ok.injEq, Prod.mk.injEq] at h
            obtain ⟨-, hjs⟩ := h
            subst hjs
            unfold selectJxArgs at hal
            rcases List.mem_append.mp hal with hal4 | h5m
            · rcases List.mem_append.mp hal4 with hal3 | h4m
              · rcases List.mem_append.mp hal3 with hal2 | h3m
                · rcases List.mem_append.mp hal2 with h1m | h2m
                  · obtain ⟨ps, c, a1, a2, a3⟩ := adaptList_ok_jx session s.targets ts j1 h1 al h1m
                    refine ⟨ps, c, a1, a2, ?_⟩
                    simp [a3]
                  · obtain ⟨ps, c, a1, a2, a3⟩ := adaptOpt_ok_jx session s.whereClause w j2 h2 al h2m
                    refine ⟨ps, c, a1, a2, ?_⟩
                    simp [a3]
                · obtain ⟨ps, c, a1, a2, a3⟩ := adaptList_ok_jx session s.groupBy gs j3 h3 al h3m
                  refine ⟨ps, c, a1, a2, ?_⟩
                  simp [a3]
              · obtain ⟨ps, c, a1, a2, a3⟩ := adaptOpt_ok_jx session s.having hv j4 h4 al h4m
                refine ⟨ps, c, a1, a2, ?_⟩
                simp [a3]
            · obtain ⟨ps, c, a1, a2, a3⟩ := adaptList_ok_jx session s.orderBy os j5 h5 al h5m
              refine ⟨ps, c, a1, a2, ?_⟩
              simp [a3]

/-- Folding the set insertions keeps every already-present or inserted
name. -/
theorem mem_dedupKeep_aux (l : List String) :
    ∀ acc c, (c ∈ acc ∨ c ∈ l) →
      c ∈ l.foldl (fun acc c => if c ∈ acc then acc else acc ++ [c]) acc := by
  induction l with
  | nil =>
    intro acc c h
    rcases h with h1 | h1
    · simpa using h1
    · simp at h1
  | cons a t ih =>
    intro acc c h
    simp only [List.foldl_cons]
    apply ih
    by_cases ha : a ∈ acc
    · rw [if_pos ha]
      rcases h with h1 | h1
      · exact Or.inl h1
      · rcases List.mem_cons.mp h1 with rfl | h2
        · exact Or.inl ha
        · exact Or.inr h2
    · rw [if_neg ha]
      rcases h with h1 | h1
      · exact Or.inl (List.mem_append_left _ h1)
      · rcases List.mem_cons.mp h1 with rfl | h2
        · exact Or.inl (List.mem_append_right _ (by simp))
        · exact Or.inr h2

/-- The deduplicated JSON column set keeps every collected name. -/
theorem mem_dedupKeep (c : String) (l : List String) (h : c ∈ l) :
    c ∈ dedupKeep l :=
  mem_dedupKeep_aux l [] c (Or.inr h)

/-- In-place JSON conversion of one column keeps all the labels. -/
theorem dfColNames_convertColInDf (df : DF) (c : String) :
    dfColNames (convertColInDf df c) = dfColNames df := by
  unfold dfColNames convertColInDf
  rw [List.map_map]
  apply List.map_congr_left
  intro nc _
  dsimp only [Function.comp]
  split <;> simp_all

/-- If the JSON conversion loop finishes without a KeyError, every listed
column name is a label of the input relation. -/
theorem convertJsonColumns_ok_mem (cols : List String) :
    ∀ df df2, convertJsonColumns df cols = .ok df2 → ∀ c ∈ cols, c ∈ dfColNames df := by
  induction cols with
  | nil =>
    intro df df2 _ c hc
    simp at hc
  | cons c0 rest ih =>
    intro df df2 h c hc
    unfold convertJsonColumns at h
    by_cases hin : c0 ∈ dfColNames df
    · rw [if_pos hin] at h
      rcases List.mem_cons.mp hc with rfl | hcr
      · exact hin
      · have := ih (convertColInDf df c0) df2 h c hcr
        rwa [dfColNames_convertColInDf] at this
    · rw [if_neg hin] at h
      simp at h

/-- Shape and presence facts make the occurrence check true. -/
theorem goodJxB_eq_true (df : DF) (al : ExprList) (ps : List String) (c : String)
    (h1 : ExprList.headOpt al = some (.identifier ps)) (h2 : ps.getLast? = some c)
    (h3 : c ∈ dfColNames df) : goodJxB df al = true := by
  unfold goodJxB
  rw [h1]
  dsimp only
  rw [h2]
  simpa using h3

/-- Replacing the source reference does not change the `json_extract`
occurrences (they live in the expression clauses only). -/
theorem selectJxArgs_mk (s : Select) (ft : Option FromNode) :
    selectJxArgs (Select.mk s.targets ft s.whereClause s.groupBy s.having s.orderBy)
      = selectJxArgs s := rfl

/-- C10: if some `json_extract` call in the query has a first argument
that is not an identifier naming a column of the input relation, then
`query_df` fails and no SQL is ever executed (the failure happens during
rewriting or during JSON-column conversion, both before the engine
session is opened). -/
theorem C10_bad_json_extract (df : DF) (s : Select) (session : Option String)
    (strict lenient : Select → Except String String)
    (engineExec : String → DF → Except String (DF × List String))
    (hbad : ∃ al ∈ selectJxArgs s, goodJxB df al = false) :
    (∃ e, (query_df df (.select s) session strict lenient engineExec).result = .error e) ∧
    ∀ sql, Event.executeEv sql ∉
      (query_df df (.select s) session strict lenient engineExec).events := by
  obtain ⟨al, hal, hbadal⟩ := hbad
  cases hft : s.from_table with
  | none => simp [query_df, hft]
  | some fn =>
    cases fn with
    | otherSource t => simp [query_df, hft]
    | identifier parts =>
      cases parts with
      | nil => simp [query_df, hft]
      | cons tn rest =>
        simp only [query_df, hft]
        cases hadapt : adaptSelect session (Select.mk s.targets
            (some (.identifier ["df_table"])) s.whereClause s.groupBy
            s.having s.orderBy) with
        | error e =>
          simp only [hadapt]
          exact ⟨⟨e, rfl⟩, by simp⟩
        | ok pr =>
          rcases pr with ⟨s2, jsRaw⟩
          simp only [hadapt]
          have hocc := adaptSelect_ok_jx session _ s2 jsRaw hadapt al
            (by rw [selectJxArgs_mk]; exact hal)
          obtain ⟨ps, c, h1, h2, h3⟩ := hocc
          cases hconv : convertJsonColumns df (dedupKeep jsRaw) with
          | error ed =>
            simp only [hconv]
            exact ⟨⟨ed.1, rfl⟩, by simp⟩
          | ok df1 =>
            have hc : c ∈ dfColNames df :=
              convertJsonColumns_ok_mem (dedupKeep jsRaw) df df1 hconv c
                (mem_dedupKeep c jsRaw h3)
            have htrue := goodJxB_eq_true df al ps c h1 h2 hc
            rw [hbadal] at htrue
            exact absurd htrue (by simp)

/-- Witness for C10: a query extracting JSON from a column absent from
the relation fails with no execute event. -/
theorem C10_bad_json_extract_witness :
    (∃ e, (query_df wDf (.select wBadJxSelect) none wStrictOk wLenientOk wExecOk).result =
      .error e) ∧
    ∀ sql, Event.executeEv sql ∉
      (query_df wDf (.select wBadJxSelect) none wStrictOk wLenientOk wExecOk).events :=
  C10_bad_json_extract wDf wBadJxSelect none wStrictOk wLenientOk wExecOk (by decide)

end MDB
